import Mathlib

set_option maxHeartbeats 2000000
set_option maxRecDepth 100000

namespace Distillation

/-- A line of program text, modelled as its list of characters (Python `str`). -/
abbrev Line : Type := List Char

/-- Decimal rendering of a natural number, as Python string interpolation does. -/
def natChars (n : Nat) : List Char := (Nat.repr n).data

/-- The closing-brace character that terminates a scope in the program text. -/
def braceChar : Char := '\x7d'

/-- Whitespace characters removed by Python `str.strip()`. -/
def isPySpace (c : Char) : Bool :=
  c = ' ' || c = '\t' || c = '\n' || c = '\r' || c = '\x0b' || c = '\x0c'

/-- Python `str.strip()`: remove leading and trailing whitespace from a line. -/
def pyStrip (l : Line) : Line :=
  ((l.dropWhile isPySpace).reverse.dropWhile isPySpace).reverse

/-- Typed quantum/classical operations the circuit library can record
(`distillation.py` emits only the first three; `assignBit` is the classical
bit write that exists in the program-text language but is never emitted into
the structured circuit).  Rotation angles are exact rational multiples of pi:
`Op.rx a q` is a rotation by `a * pi` on qubit `q`. -/
inductive Op : Type
  | rx (angle : ℚ) (qubit : Nat)
  | cx (control : Nat) (target : Nat)
  | measure (qubit : Nat) (clbit : Nat)
  | assignBit (clbit : Nat) (value : Bool)
deriving DecidableEq, Repr

/-- The rotation angle `np.pi/2` of `distillation.py`, as the coefficient of pi:
the rational one half, given in normal form so that the kernel can evaluate
comparisons on it. -/
def pi_over_2 : ℚ := Rat.mk' 1 2 (by norm_num) (by norm_num)

deriving instance DecidableEq for Except

/-- Alice's target qubit index, `alice_target = N - 1` (line 66). -/
def alice_target (N : Nat) : Nat := N - 1

/-- Bob's target qubit index, `bob_target = N` (line 67). -/
def bob_target (N : Nat) : Nat := N

/-- The flag bit index, `flag_bit = 2*N - 2` (line 70). -/
def flag_bit (N : Nat) : Nat := 2*N - 2

/-- The four indices computed for ancilla step `k` (lines 74-80). -/
structure StepIndices where
  alice_ancilla : Nat
  bob_ancilla : Nat
  alice_meas : Nat
  bob_meas : Nat
deriving DecidableEq, Repr

/-- The pairing scheme of `distillation.py` lines 75-80:
`alice_ancilla = k`, `bob_ancilla = 2N-1-k`, `alice_meas = 2k`, `bob_meas = 2k+1`. -/
def pairing (N k : Nat) : StepIndices :=
  { alice_ancilla := k
    bob_ancilla := 2*N - 1 - k
    alice_meas := 2*k
    bob_meas := 2*k + 1 }

/-- The eight operations emitted by one iteration of the loop body
(`distillation.py` lines 82-101), in emission order. -/
def step_ops (N k : Nat) : List Op :=
  [Op.rx pi_over_2 (alice_target N),
   Op.rx pi_over_2 (pairing N k).alice_ancilla,
   Op.rx (-pi_over_2) (bob_target N),
   Op.rx (-pi_over_2) (pairing N k).bob_ancilla,
   Op.cx (pairing N k).alice_ancilla (alice_target N),
   Op.cx (pairing N k).bob_ancilla (bob_target N),
   Op.measure (pairing N k).alice_ancilla (pairing N k).alice_meas,
   Op.measure (pairing N k).bob_ancilla (pairing N k).bob_meas]

/-- The full structured operation sequence: the loop `for k in range(N-1)`
(lines 73-101) emits `step_ops N k` for `k = 0, 1, ..., N-2` in order. -/
def circuit_ops (N : Nat) : List Op :=
  (List.range (N - 1)).flatMap (step_ops N)

/-- The 8-operation window of the emitted sequence belonging to step `k`. -/
def step_slice (N k : Nat) : List Op :=
  ((circuit_ops N).drop (8*k)).take 8

/-- Qubit indices an operation acts on. -/
def opQubits : Op → List Nat
  | Op.rx _ q => [q]
  | Op.cx c t => [c, t]
  | Op.measure q _ => [q]
  | Op.assignBit _ _ => []

/-- Classical bit indices an operation writes. -/
def opWriteBits : Op → List Nat
  | Op.measure _ b => [b]
  | Op.assignBit b _ => [b]
  | Op.rx _ _ => []
  | Op.cx _ _ => []

/-- Recogniser for measurement operations. -/
def isMeasureOp : Op → Bool
  | Op.measure _ _ => true
  | _ => false

/-- Recogniser for controlled (CNOT) operations. -/
def isCxOp : Op → Bool
  | Op.cx _ _ => true
  | _ => false

/-- Recogniser for classical bit writes (never emitted by the builder). -/
def isAssignOp : Op → Bool
  | Op.assignBit _ _ => true
  | _ => false

/-- Recogniser for a rotation by the given angle. -/
def isRxWith (a : ℚ) : Op → Bool
  | Op.rx b _ => decide (b = a)
  | _ => false

/-- The header comment line of the flag-logic fragment (line 110). -/
def flag_header_line : Line :=
  "    // Flag logic: set flag = 1 if any measurements don\x27t match".data

/-- The per-step comment line of the flag-logic fragment (line 116). -/
def step_comment_line (k a b : Nat) : Line :=
  "    // Step ".data ++ natChars k ++ ": Check if c[".data ++ natChars a ++
    "] != c[".data ++ natChars b ++ "]".data

/-- The conditional line checking `c[a] == true && c[b] == false` (line 118). -/
def if_true_false_line (a b : Nat) : Line :=
  "    if (c[".data ++ natChars a ++ "] == true && c[".data ++ natChars b ++
    "] == false) \x7b".data

/-- The conditional line checking `c[a] == false && c[b] == true` (line 121). -/
def if_false_true_line (a b : Nat) : Line :=
  "    if (c[".data ++ natChars a ++ "] == false && c[".data ++ natChars b ++
    "] == true) \x7b".data

/-- The line assigning `true` to classical bit `b` (lines 119 and 122). -/
def set_flag_line (b : Nat) : Line :=
  "        c[".data ++ natChars b ++ "] = true;".data

/-- The line closing a conditional block (lines 120 and 123). -/
def close_brace_line : Line :=
  "    \x7d".data

/-- The flag-logic fragment built by `distillation.py` lines 109-123: a header
comment, then for each `k` in `range(N-1)` in order a comment line and the two
conditional blocks for the measurement bits `2k` and `2k+1`. -/
def flag_logic_lines (N : Nat) : List Line :=
  flag_header_line ::
    (List.range (N - 1)).flatMap (fun k =>
      [step_comment_line k (2*k) (2*k+1),
       if_true_false_line (2*k) (2*k+1),
       set_flag_line (flag_bit N),
       close_brace_line,
       if_false_true_line (2*k) (2*k+1),
       set_flag_line (flag_bit N),
       close_brace_line])

/-- A line whose stripped content begins with the keyword of a conditional. -/
def is_if_line (l : Line) : Bool :=
  (pyStrip l).take 2 = "if".data

/-- A line whose stripped content begins like an assignment to a classical bit. -/
def is_assign_line (l : Line) : Bool :=
  (pyStrip l).take 2 = "c[".data

/-- Rendering of a rotation angle (a rational multiple of pi) in program text. -/
def angleChars (a : ℚ) : List Char :=
  (if a < 0 then "-".data else []) ++ "pi*".data ++ natChars a.num.natAbs ++
    "/".data ++ natChars a.den

/-- One textual statement per operation, as the program-text language writes it. -/
def opLine : Op → Line
  | Op.rx a q => "    rx(".data ++ angleChars a ++ ") q[".data ++ natChars q ++ "];".data
  | Op.cx c t => "    cx q[".data ++ natChars c ++ "], q[".data ++ natChars t ++ "];".data
  | Op.measure q b =>
      "    c[".data ++ natChars b ++ "] = measure q[".data ++ natChars q ++ "];".data
  | Op.assignBit b v =>
      "    c[".data ++ natChars b ++ "] = ".data ++
        (if v then "true".data else "false".data) ++ ";".data

/-- Modelled from the spec: the external program serializer (`qasm3.dumps`,
spec section 4.4), which is not part of this repository.  It returns a
header, register declarations, a scope-delimited body containing one textual
statement per emitted operation, and a closing scope delimiter. -/
def serializeModel (numQubits numClbits : Nat) (ops : List Op) : List Line :=
  ["OPENQASM 3.0;".data,
   "qubit[".data ++ natChars numQubits ++ "] q;".data,
   "bit[".data ++ natChars numClbits ++ "] c;".data,
   "\x7b".data] ++ ops.map opLine ++ ["\x7d".data]

/-- The reverse scan of `distillation.py` lines 129-134, counting down from
index `i`: the first index `j ≤ i` with `j > 0` whose stripped line is exactly
a closing brace wins; if none qualifies the initial value `len(qasm_lines)`
is kept. -/
def insert_pos_from (lines : List Line) : Nat → Nat
  | 0 => lines.length
  | i+1 =>
      if pyStrip (lines.getD (i+1) []) = [braceChar] then i+1
      else insert_pos_from lines i

/-- The insertion position chosen by the patcher: the scan starts at the last
index `len(qasm_lines) - 1` (line 130). -/
def find_insert_pos (lines : List Line) : Nat :=
  insert_pos_from lines (lines.length - 1)

/-- The splice of `distillation.py` line 137:
`qasm_lines[:insert_pos] + flag_logic_lines + qasm_lines[insert_pos:]`. -/
def patch_program (lines frag : List Line) : List Line :=
  (lines.take (find_insert_pos lines)) ++ frag ++ (lines.drop (find_insert_pos lines))

/-- The artifact returned by `create_distillation_circuit`: register sizes, the
structured operation sequence, the `_modified_qasm3` attribute and the value
returned by the attached `get_qasm3_with_flag` accessor. -/
structure DistillationCircuit where
  num_qubits : Nat
  num_clbits : Nat
  ops : List Op
  modified_qasm3 : List Line
  qasm3_with_flag : List Line
deriving DecidableEq, Repr

/-- `create_distillation_circuit`, with the external serializer passed as a
black-box function as the spec treats it: validate `2 <= N <= 8` (line 53),
allocate `2N` qubits and `2N-1` classical bits (lines 60-62), emit the
operation sequence (lines 73-101), serialize, build the flag-logic fragment
(lines 109-123), splice it (lines 126-138), and attach the merged text both
as the `_modified_qasm3` attribute and as the accessor result (lines 143-150). -/
def create_with (serialize : Nat → Nat → List Op → List Line)
    (num_bell_pairs : Nat) : Except String DistillationCircuit :=
  if ¬(2 ≤ num_bell_pairs ∧ num_bell_pairs ≤ 8) then
    Except.error "num_bell_pairs must be between 2 and 8"
  else
    let N := num_bell_pairs
    let ops := circuit_ops N
    let qasm_lines := serialize (2*N) (2*N - 1) ops
    let new_qasm_lines := patch_program qasm_lines (flag_logic_lines N)
    Except.ok
      { num_qubits := 2*N
        num_clbits := 2*N - 1
        ops := ops
        modified_qasm3 := new_qasm_lines
        qasm3_with_flag := new_qasm_lines }

/-- The construction entry point of `distillation.py`, with the external
serializer instantiated at its model. -/
def create_distillation_circuit (num_bell_pairs : Nat) :
    Except String DistillationCircuit :=
  create_with serializeModel num_bell_pairs

/-- Outcome of the validation on line 53 of `distillation.py`. -/
inductive ValidationResult
  | invalidParameter (msg : String)
  | proceed (value : ℚ)
deriving DecidableEq

/-- The validation of `distillation.py` lines 52-54 over an arbitrary Python
number (modelled as a rational, since the `int` annotation is not enforced at
runtime): `if not (2 <= num_bell_pairs <= 8): raise ValueError(...)`. -/
def validate_num_bell_pairs (x : ℚ) : ValidationResult :=
  if ¬(2 ≤ x ∧ x ≤ 8) then
    ValidationResult.invalidParameter "num_bell_pairs must be between 2 and 8"
  else
    ValidationResult.proceed x

/-- The Python float `2.5`, a non-integer value of `num_bell_pairs`, in normal
form so that the kernel can evaluate comparisons on it. -/
def five_halves : ℚ := Rat.mk' 5 2 (by norm_num) (by norm_num)

theorem pairing_alice_ancilla (N k : Nat) : (pairing N k).alice_ancilla = k := rfl

theorem pairing_bob_ancilla (N k : Nat) : (pairing N k).bob_ancilla = 2*N - 1 - k := rfl

theorem pairing_alice_meas (N k : Nat) : (pairing N k).alice_meas = 2*k := rfl

theorem pairing_bob_meas (N k : Nat) : (pairing N k).bob_meas = 2*k + 1 := rfl

/-- C1: for every valid `N` in `[2,8]` and every step `k` from `0` to `N-2`,
the construction emits for step `k` exactly the eight operations
rotation `+pi/2` on Alice's target `N-1`, rotation `+pi/2` on Alice's ancilla
`k`, rotation `-pi/2` on Bob's target `N`, rotation `-pi/2` on Bob's ancilla
`2N-1-k`, CNOT with Alice's ancilla as control and Alice's target as acted-upon
qubit, the same for Bob's pair, measurement of Alice's ancilla into classical
bit `2k`, and measurement of Bob's ancilla into classical bit `2k+1`, in this
order; steps are laid out in increasing `k` at offset `8k`, and the whole
sequence has length `8(N-1)`, so the slices for `k = 0..N-2` cover it. -/
theorem C1_step_operation_sequence (N k : Nat) (h2 : 2 ≤ N) (h8 : N ≤ 8)
    (hk : k ≤ N - 2) :
    step_slice N k =
      [Op.rx pi_over_2 (N-1), Op.rx pi_over_2 k,
       Op.rx (-pi_over_2) N, Op.rx (-pi_over_2) (2*N-1-k),
       Op.cx k (N-1), Op.cx (2*N-1-k) N,
       Op.measure k (2*k), Op.measure (2*N-1-k) (2*k+1)] ∧
    (circuit_ops N).length = 8*(N-1) := by
  interval_cases N <;> interval_cases k <;> exact ⟨by decide, by decide⟩

/-- Witness for C1 at `N = 2`, `k = 0`. -/
theorem C1_step_operation_sequence_witness :
    step_slice 2 0 =
      [Op.rx pi_over_2 (2-1), Op.rx pi_over_2 0,
       Op.rx (-pi_over_2) 2, Op.rx (-pi_over_2) (2*2-1-0),
       Op.cx 0 (2-1), Op.cx (2*2-1-0) 2,
       Op.measure 0 (2*0), Op.measure (2*2-1-0) (2*0+1)] ∧
    (circuit_ops 2).length = 8*(2-1) :=
  C1_step_operation_sequence 2 0 (by norm_num) (by norm_num) (by norm_num)

/-- C4: for every valid `N` in `[2,8]` and `k` in `[0, N-2]`, the pairing
scheme maps `k` to Alice ancilla `k`, Bob ancilla `2N-1-k`, Alice measurement
bit `2k` and Bob measurement bit `2k+1` (it is a total function on that
domain, hence deterministic), and the measurements actually emitted in step
`k` of the operation sequence are exactly the measurements of those ancilla
qubits into those classical bits. -/
theorem C4_pairing_scheme (N k : Nat) (h2 : 2 ≤ N) (h8 : N ≤ 8)
    (hk : k ≤ N - 2) :
    pairing N k = { alice_ancilla := k, bob_ancilla := 2*N-1-k,
                    alice_meas := 2*k, bob_meas := 2*k+1 } ∧
    (step_slice N k).filter isMeasureOp =
      [Op.measure (pairing N k).alice_ancilla (pairing N k).alice_meas,
       Op.measure (pairing N k).bob_ancilla (pairing N k).bob_meas] := by
  interval_cases N <;> interval_cases k <;> exact ⟨rfl, by decide⟩

/-- Witness for C4 at `N = 2`, `k = 0`. -/
theorem C4_pairing_scheme_witness :
    pairing 2 0 = { alice_ancilla := 0, bob_ancilla := 2*2-1-0,
                    alice_meas := 2*0, bob_meas := 2*0+1 } ∧
    (step_slice 2 0).filter isMeasureOp =
      [Op.measure (pairing 2 0).alice_ancilla (pairing 2 0).alice_meas,
       Op.measure (pairing 2 0).bob_ancilla (pairing 2 0).bob_meas] :=
  C4_pairing_scheme 2 0 (by norm_num) (by norm_num) (by norm_num)

/-- C5: for every valid `N` in `[2,8]` and distinct `k1, k2` in `[0, N-2]`,
the ancilla qubit indices of step `k1` are disjoint from those of step `k2`,
no ancilla qubit index equals either target index `N-1` or `N`, and the
measurement bit pairs `(2k, 2k+1)` are pairwise disjoint across distinct
steps. -/
theorem C5_step_disjointness (N k1 k2 : Nat) (h2 : 2 ≤ N) (h8 : N ≤ 8)
    (hk1 : k1 ≤ N - 2) (hk2 : k2 ≤ N - 2) (hne : k1 ≠ k2) :
    ((pairing N k1).alice_ancilla ≠ (pairing N k2).alice_ancilla ∧
     (pairing N k1).alice_ancilla ≠ (pairing N k2).bob_ancilla ∧
     (pairing N k1).bob_ancilla ≠ (pairing N k2).alice_ancilla ∧
     (pairing N k1).bob_ancilla ≠ (pairing N k2).bob_ancilla) ∧
    ((pairing N k1).alice_ancilla ≠ alice_target N ∧
     (pairing N k1).alice_ancilla ≠ bob_target N ∧
     (pairing N k1).bob_ancilla ≠ alice_target N ∧
     (pairing N k1).bob_ancilla ≠ bob_target N) ∧
    ((pairing N k1).alice_meas ≠ (pairing N k2).alice_meas ∧
     (pairing N k1).alice_meas ≠ (pairing N k2).bob_meas ∧
     (pairing N k1).bob_meas ≠ (pairing N k2).alice_meas ∧
     (pairing N k1).bob_meas ≠ (pairing N k2).bob_meas) := by
  simp only [pairing_alice_ancilla, pairing_bob_ancilla, pairing_alice_meas,
    pairing_bob_meas, alice_target, bob_target]
  omega

/-- Witness for C5 at `N = 3`, `k1 = 0`, `k2 = 1`. -/
theorem C5_step_disjointness_witness :
    ((pairing 3 0).alice_ancilla ≠ (pairing 3 1).alice_ancilla ∧
     (pairing 3 0).alice_ancilla ≠ (pairing 3 1).bob_ancilla ∧
     (pairing 3 0).bob_ancilla ≠ (pairing 3 1).alice_ancilla ∧
     (pairing 3 0).bob_ancilla ≠ (pairing 3 1).bob_ancilla) ∧
    ((pairing 3 0).alice_ancilla ≠ alice_target 3 ∧
     (pairing 3 0).alice_ancilla ≠ bob_target 3 ∧
     (pairing 3 0).bob_ancilla ≠ alice_target 3 ∧
     (pairing 3 0).bob_ancilla ≠ bob_target 3) ∧
    ((pairing 3 0).alice_meas ≠ (pairing 3 1).alice_meas ∧
     (pairing 3 0).alice_meas ≠ (pairing 3 1).bob_meas ∧
     (pairing 3 0).bob_meas ≠ (pairing 3 1).alice_meas ∧
     (pairing 3 0).bob_meas ≠ (pairing 3 1).bob_meas) :=
  C5_step_disjointness 3 0 1 (by norm_num) (by norm_num) (by norm_num)
    (by norm_num) (by norm_num)

/-- C6: for every valid `N` in `[2,8]`, the constructed artifact has qubit
count `2N` and classical-bit count `2N-1`, the target qubit indices are
`(N-1, N)`, the flag-bit index is `2N-2`, and there are `N-1` ancilla steps:
the operation sequence consists of `8(N-1)` operations containing `2(N-1)`
measurements (two per step); moreover every qubit index used lies below `2N`
and every classical bit written lies below `2N-1`, so the allocation covers
everything the circuit touches. -/
theorem C6_register_allocation (N : Nat) (h2 : 2 ≤ N) (h8 : N ≤ 8) :
    (create_distillation_circuit N).map (fun c => c.num_qubits) = Except.ok (2*N) ∧
    (create_distillation_circuit N).map (fun c => c.num_clbits) = Except.ok (2*N-1) ∧
    alice_target N = N - 1 ∧ bob_target N = N ∧ flag_bit N = 2*N - 2 ∧
    (create_distillation_circuit N).map (fun c => c.ops.countP isMeasureOp) =
      Except.ok (2*(N-1)) ∧
    (create_distillation_circuit N).map (fun c => c.ops.length) = Except.ok (8*(N-1)) ∧
    (∀ op ∈ circuit_ops N,
      (∀ q ∈ opQubits op, q < 2*N) ∧ (∀ b ∈ opWriteBits op, b < 2*N-1)) := by
  interval_cases N <;> exact by decide

/-- C2: for every valid `N` in `[2,8]`, the flag-logic fragment contains, for
each step `k` in `[0, N-2]`, exactly one conditional checking
`c[2k] == true && c[2k+1] == false` and exactly one checking
`c[2k] == false && c[2k+1] == true`, each forming a block whose body assigns
`true` to the flag bit `2N-2`; the pairs occur in the same increasing order of
`k` as the gate emission; the fragment (and hence the merged text) contains
exactly `N-1` conditional pairs, i.e. `2(N-1)` conditional lines; and every
assignment statement in the fragment assigns exactly `true` to bit `2N-2`, so
the flag is never cleared and never receives another value. -/
theorem C2_flag_logic_fragment (N : Nat) (h2 : 2 ≤ N) (h8 : N ≤ 8) :
    (∀ k, k < N - 1 →
      (flag_logic_lines N).count (if_true_false_line (2*k) (2*k+1)) = 1 ∧
      (flag_logic_lines N).count (if_false_true_line (2*k) (2*k+1)) = 1 ∧
      List.IsInfix
        [if_true_false_line (2*k) (2*k+1), set_flag_line (2*N-2), close_brace_line,
         if_false_true_line (2*k) (2*k+1), set_flag_line (2*N-2), close_brace_line]
        (flag_logic_lines N)) ∧
    (∀ k2, k2 < N - 1 → ∀ k1, k1 < k2 →
      (flag_logic_lines N).indexOf (if_true_false_line (2*k1) (2*k1+1)) <
        (flag_logic_lines N).indexOf (if_true_false_line (2*k2) (2*k2+1))) ∧
    (flag_logic_lines N).countP is_if_line = 2*(N-1) ∧
    (create_distillation_circuit N).map (fun c => c.modified_qasm3.countP is_if_line) =
      Except.ok (2*(N-1)) ∧
    (∀ l ∈ flag_logic_lines N, is_assign_line l = true → l = set_flag_line (2*N-2)) := by
  interval_cases N <;> exact by decide

/-- Witness for C2 at `N = 2`. -/
theorem C2_flag_logic_fragment_witness :
    (∀ k, k < 2 - 1 →
      (flag_logic_lines 2).count (if_true_false_line (2*k) (2*k+1)) = 1 ∧
      (flag_logic_lines 2).count (if_false_true_line (2*k) (2*k+1)) = 1 ∧
      List.IsInfix
        [if_true_false_line (2*k) (2*k+1), set_flag_line (2*2-2), close_brace_line,
         if_false_true_line (2*k) (2*k+1), set_flag_line (2*2-2), close_brace_line]
        (flag_logic_lines 2)) ∧
    (∀ k2, k2 < 2 - 1 → ∀ k1, k1 < k2 →
      (flag_logic_lines 2).indexOf (if_true_false_line (2*k1) (2*k1+1)) <
        (flag_logic_lines 2).indexOf (if_true_false_line (2*k2) (2*k2+1))) ∧
    (flag_logic_lines 2).countP is_if_line = 2*(2-1) ∧
    (create_distillation_circuit 2).map (fun c => c.modified_qasm3.countP is_if_line) =
      Except.ok (2*(2-1)) ∧
    (∀ l ∈ flag_logic_lines 2, is_assign_line l = true → l = set_flag_line (2*2-2)) :=
  C2_flag_logic_fragment 2 (by norm_num) (by norm_num)

/-- C8: for every valid `N` in `[2,8]`, no operation in the emitted structured
sequence ever writes the flag bit `2N-2`: every classical bit written by an
operation (only measurements write bits) lies in `[0, 2N-3]`; every qubit an
operation of step `k` acts on is one of the two targets or the two ancillas of
step `k`; and no operation of step `k` acts on an ancilla qubit of a different
step `j`. -/
theorem C8_flag_bit_unwritten (N : Nat) (h2 : 2 ≤ N) (h8 : N ≤ 8) :
    (∀ op ∈ circuit_ops N, ∀ b ∈ opWriteBits op, b < 2*N - 2) ∧
    (∀ k, k < N - 1 → ∀ op ∈ step_slice N k, ∀ q ∈ opQubits op,
      q = alice_target N ∨ q = bob_target N ∨
      q = (pairing N k).alice_ancilla ∨ q = (pairing N k).bob_ancilla) ∧
    (∀ k, k < N - 1 → ∀ j, j < N - 1 → j ≠ k → ∀ op ∈ step_slice N k,
      ∀ q ∈ opQubits op,
      q ≠ (pairing N j).alice_ancilla ∧ q ≠ (pairing N j).bob_ancilla) := by
  interval_cases N <;> exact ⟨by decide, by decide, by decide⟩

/-- Witness for C8 at `N = 3`. -/
theorem C8_flag_bit_unwritten_witness :
    (∀ op ∈ circuit_ops 3, ∀ b ∈ opWriteBits op, b < 2*3 - 2) ∧
    (∀ k, k < 3 - 1 → ∀ op ∈ step_slice 3 k, ∀ q ∈ opQubits op,
      q = alice_target 3 ∨ q = bob_target 3 ∨
      q = (pairing 3 k).alice_ancilla ∨ q = (pairing 3 k).bob_ancilla) ∧
    (∀ k, k < 3 - 1 → ∀ j, j < 3 - 1 → j ≠ k → ∀ op ∈ step_slice 3 k,
      ∀ q ∈ opQubits op,
      q ≠ (pairing 3 j).alice_ancilla ∧ q ≠ (pairing 3 j).bob_ancilla) :=
  C8_flag_bit_unwritten 3 (by norm_num) (by norm_num)

/-- C10: for every valid `N` in `[2,8]`, the structured circuit holds exactly
`8(N-1)` operations, each step contributing two `+pi/2` rotations, two `-pi/2`
rotations, two controlled operations and two measurements; the sequence holds
no classical-conditional or bit-writing operation; the `_modified_qasm3`
attribute and the `get_qasm3_with_flag` accessor return identical content;
re-serializing the structured operations alone yields text with no conditional
line, while the attached merged text contains the `2(N-1)` conditional lines
of the flag logic. -/
theorem C10_flag_logic_only_in_text (N : Nat) (h2 : 2 ≤ N) (h8 : N ≤ 8) :
    (create_distillation_circuit N).map (fun c => c.ops.length) = Except.ok (8*(N-1)) ∧
    (∀ k, k < N - 1 →
      (step_slice N k).countP (isRxWith pi_over_2) = 2 ∧
      (step_slice N k).countP (isRxWith (-pi_over_2)) = 2 ∧
      (step_slice N k).countP isCxOp = 2 ∧
      (step_slice N k).countP isMeasureOp = 2) ∧
    (create_distillation_circuit N).map (fun c => c.ops.countP isAssignOp) =
      Except.ok 0 ∧
    (create_distillation_circuit N).map (fun c => c.qasm3_with_flag) =
      (create_distillation_circuit N).map (fun c => c.modified_qasm3) ∧
    (serializeModel (2*N) (2*N-1) (circuit_ops N)).countP is_if_line = 0 ∧
    (create_distillation_circuit N).map
      (fun c => c.modified_qasm3.countP is_if_line) = Except.ok (2*(N-1)) := by
  interval_cases N <;> exact by decide

/-- Witness for C10 at `N = 2`. -/
theorem C10_flag_logic_only_in_text_witness :
    (create_distillation_circuit 2).map (fun c => c.ops.length) = Except.ok (8*(2-1)) ∧
    (∀ k, k < 2 - 1 →
      (step_slice 2 k).countP (isRxWith pi_over_2) = 2 ∧
      (step_slice 2 k).countP (isRxWith (-pi_over_2)) = 2 ∧
      (step_slice 2 k).countP isCxOp = 2 ∧
      (step_slice 2 k).countP isMeasureOp = 2) ∧
    (create_distillation_circuit 2).map (fun c => c.ops.countP isAssignOp) =
      Except.ok 0 ∧
    (create_distillation_circuit 2).map (fun c => c.qasm3_with_flag) =
      (create_distillation_circuit 2).map (fun c => c.modified_qasm3) ∧
    (serializeModel (2*2) (2*2-1) (circuit_ops 2)).countP is_if_line = 0 ∧
    (create_distillation_circuit 2).map
      (fun c => c.modified_qasm3.countP is_if_line) = Except.ok (2*(2-1)) :=
  C10_flag_logic_only_in_text 2 (by norm_num) (by norm_num)

/-- Witness for C6 at `N = 2`. -/
theorem C6_register_allocation_witness :
    (create_distillation_circuit 2).map (fun c => c.num_qubits) = Except.ok (2*2) ∧
    (create_distillation_circuit 2).map (fun c => c.num_clbits) = Except.ok (2*2-1) ∧
    alice_target 2 = 2 - 1 ∧ bob_target 2 = 2 ∧ flag_bit 2 = 2*2 - 2 ∧
    (create_distillation_circuit 2).map (fun c => c.ops.countP isMeasureOp) =
      Except.ok (2*(2-1)) ∧
    (create_distillation_circuit 2).map (fun c => c.ops.length) = Except.ok (8*(2-1)) ∧
    (∀ op ∈ circuit_ops 2,
      (∀ q ∈ opQubits op, q < 2*2) ∧ (∀ b ∈ opWriteBits op, b < 2*2-1)) :=
  C6_register_allocation 2 (by norm_num) (by norm_num)

/-- Characterisation of the reverse scan `insert_pos_from`: starting at index
`i` it either finds no qualifying line among indices `1..i` and keeps the
initial value `lines.length`, or it returns the greatest index in `1..i`
whose stripped line is exactly the closing brace. -/
theorem insert_pos_from_spec (lines : List Line) (i : Nat) :
    (insert_pos_from lines i = lines.length ∧
      ∀ j, 1 ≤ j → j ≤ i → pyStrip (lines.getD j []) ≠ [braceChar]) ∨
    (1 ≤ insert_pos_from lines i ∧ insert_pos_from lines i ≤ i ∧
      pyStrip (lines.getD (insert_pos_from lines i) []) = [braceChar] ∧
      ∀ j, insert_pos_from lines i < j → j ≤ i →
        pyStrip (lines.getD j []) ≠ [braceChar]) := by
  induction i with
  | zero =>
      refine Or.inl ⟨rfl, ?_⟩
      intro j hj1 hj2
      exact absurd (Nat.le_trans hj1 hj2) (by decide)
  | succ n ih =>
      by_cases h : pyStrip (lines.getD (n+1) []) = [braceChar]
      · have he : insert_pos_from lines (n+1) = n+1 := by
          simp only [insert_pos_from]
          rw [if_pos h]
        refine Or.inr ?_
        rw [he]
        refine ⟨by omega, Nat.le_refl _, h, ?_⟩
        intro j hj1 hj2
        exact absurd (Nat.lt_of_lt_of_le hj1 hj2) (Nat.lt_irrefl _)
      · have he : insert_pos_from lines (n+1) = insert_pos_from lines n := by
          simp only [insert_pos_from]
          rw [if_neg h]
        rw [he]
        rcases ih with ⟨h1, h2⟩ | ⟨h1, h2, h3, h4⟩
        · refine Or.inl ⟨h1, ?_⟩
          intro j hj1 hj2
          rcases Nat.lt_or_ge j (n+1) with hj | hj
          · exact h2 j hj1 (by omega)
          · have hje : j = n+1 := by omega
            rw [hje]
            exact h
        · refine Or.inr ⟨h1, by omega, h3, ?_⟩
          intro j hj1 hj2
          rcases Nat.lt_or_ge j (n+1) with hj | hj
          · exact h4 j hj1 (by omega)
          · have hje : j = n+1 := by omega
            rw [hje]
            exact h

/-- C3: the patcher returns `text[0:insertPos] ++ fragment ++ text[insertPos:]`;
the insertion point is the line found by scanning from the last line toward
the first whose stripped content is exactly a closing brace and whose index is
not the very first line (equivalently, the greatest such index); and when no
such closing-delimiter line exists, the insertion point is the end of the
text, so the fragment is appended after all original lines — the patcher is a
total function and raises no failure. -/
theorem C3_patcher_insertion (lines frag : List Line) :
    patch_program lines frag =
      lines.take (find_insert_pos lines) ++ frag ++ lines.drop (find_insert_pos lines) ∧
    ((∃ i, 0 < i ∧ i < lines.length ∧ pyStrip (lines.getD i []) = [braceChar]) →
      (0 < find_insert_pos lines ∧ find_insert_pos lines < lines.length ∧
       pyStrip (lines.getD (find_insert_pos lines) []) = [braceChar] ∧
       ∀ j, find_insert_pos lines < j → j < lines.length →
         pyStrip (lines.getD j []) ≠ [braceChar])) ∧
    ((∀ i, i < lines.length → 0 < i → pyStrip (lines.getD i []) ≠ [braceChar]) →
      find_insert_pos lines = lines.length ∧
      patch_program lines frag = lines ++ frag) := by
  refine ⟨rfl, ?_, ?_⟩
  · rintro ⟨i, hi0, hilen, hib⟩
    rcases insert_pos_from_spec lines (lines.length - 1) with ⟨h1, h2⟩ | ⟨h1, h2, h3, h4⟩
    · exact absurd hib (h2 i (by omega) (by omega))
    · have hfi : find_insert_pos lines = insert_pos_from lines (lines.length - 1) := rfl
      rw [hfi]
      refine ⟨by omega, by omega, h3, ?_⟩
      intro j hj1 hj2
      exact h4 j hj1 (by omega)
  · intro hnone
    rcases insert_pos_from_spec lines (lines.length - 1) with ⟨h1, h2⟩ | ⟨h1, h2, h3, h4⟩
    · have hfi : find_insert_pos lines = lines.length := h1
      refine ⟨hfi, ?_⟩
      unfold patch_program
      rw [hfi, List.take_length, List.drop_length, List.append_nil]
    · exfalso
      exact hnone (insert_pos_from lines (lines.length - 1)) (by omega) (by omega) h3

/-- Witness for C3: on a three-line text whose middle line strips to a closing
brace the scan selects index 1, and on a brace-free text the fragment is
appended at the end. -/
theorem C3_patcher_insertion_witness :
    (0 < find_insert_pos ["a".data, " \x7d ".data, "b".data] ∧
     find_insert_pos ["a".data, " \x7d ".data, "b".data] <
       (["a".data, " \x7d ".data, "b".data] : List Line).length ∧
     pyStrip ((["a".data, " \x7d ".data, "b".data] : List Line).getD
       (find_insert_pos ["a".data, " \x7d ".data, "b".data]) []) = [braceChar] ∧
     ∀ j, find_insert_pos ["a".data, " \x7d ".data, "b".data] < j →
       j < (["a".data, " \x7d ".data, "b".data] : List Line).length →
       pyStrip ((["a".data, " \x7d ".data, "b".data] : List Line).getD j []) ≠
         [braceChar]) ∧
    (find_insert_pos ["x".data, "y".data] = (["x".data, "y".data] : List Line).length ∧
     patch_program ["x".data, "y".data] ["F".data] =
       ["x".data, "y".data] ++ ["F".data]) :=
  ⟨(C3_patcher_insertion ["a".data, " \x7d ".data, "b".data] ["F".data]).2.1
      ⟨1, by decide⟩,
   (C3_patcher_insertion ["x".data, "y".data] ["F".data]).2.2 (by decide)⟩

/-- C7 counterexample: the claim says every non-integer input fails with the
InvalidParameter validation error before any allocation; but the Python value
2.5 (a non-integer, `den = 2`) passes the range check
`2 <= num_bell_pairs <= 8` on line 53, so the validation does not reject it
and no InvalidParameter error is raised before allocation. -/
theorem C7_nonint_passes_validation :
    validate_num_bell_pairs five_halves = ValidationResult.proceed five_halves ∧
    five_halves.den ≠ 1 :=
  ⟨by decide, by decide⟩

/-- C7 (amended): the validation raises the InvalidParameter error exactly
when the input is outside `[2, 8]` — integrality is not checked, so a
non-integral input inside the range passes validation (any failure for it
would arise later, in the external register allocator); each of
`N = 1, 9, 0, -1` is outside the range and fails with the error, producing no
artifact; and for every integer `N` in `[2,8]` construction succeeds. -/
theorem C7_validation_range_only :
    (∀ x : ℚ, (validate_num_bell_pairs x =
        ValidationResult.invalidParameter "num_bell_pairs must be between 2 and 8") ↔
      ¬(2 ≤ x ∧ x ≤ 8)) ∧
    (∀ N : Nat, ¬(2 ≤ N ∧ N ≤ 8) →
      create_distillation_circuit N =
        Except.error "num_bell_pairs must be between 2 and 8") ∧
    (∀ N : Nat, 2 ≤ N → N ≤ 8 →
      ∃ c, create_distillation_circuit N = Except.ok c) := by
  refine ⟨?_, ?_, ?_⟩
  · intro x
    by_cases h : 2 ≤ x ∧ x ≤ 8
    · simp [validate_num_bell_pairs, h]
    · simp [validate_num_bell_pairs, h]
  · intro N h
    simp only [create_distillation_circuit, create_with]
    rw [if_pos h]
  · intro N h2 h8
    have h : create_distillation_circuit N =
        Except.ok
          { num_qubits := 2*N
            num_clbits := 2*N - 1
            ops := circuit_ops N
            modified_qasm3 :=
              patch_program (serializeModel (2*N) (2*N - 1) (circuit_ops N))
                (flag_logic_lines N)
            qasm3_with_flag :=
              patch_program (serializeModel (2*N) (2*N - 1) (circuit_ops N))
                (flag_logic_lines N) } := by
      simp only [create_distillation_circuit, create_with]
      rw [if_neg (not_not_intro ⟨h2, h8⟩)]
    exact ⟨_, h⟩

/-- Witness for C7 (amended) at `N = 9` (rejected) and `N = 2` (accepted). -/
theorem C7_validation_range_only_witness :
    create_distillation_circuit 9 =
      Except.error "num_bell_pairs must be between 2 and 8" ∧
    ∃ c, create_distillation_circuit 2 = Except.ok c :=
  ⟨C7_validation_range_only.2.1 9 (by norm_num),
   C7_validation_range_only.2.2 2 (by norm_num) (by norm_num)⟩

/-- C9: construction is deterministic. With the external serializer modelled
as a pure function of the register sizes and the operation sequence, two
invocations of the construction with the same `N`, even through two serializer
instances that agree pointwise (same operation sequence implies same text),
produce identical artifacts and in particular byte-identical merged program
texts. -/
theorem C9_deterministic_construction (s1 s2 : Nat → Nat → List Op → List Line)
    (N1 N2 : Nat) (hN : N1 = N2) (h2 : 2 ≤ N1) (h8 : N1 ≤ 8)
    (hs : ∀ nq nc ops, s1 nq nc ops = s2 nq nc ops) :
    create_with s1 N1 = create_with s2 N2 ∧
    (create_with s1 N1).map (fun c => c.modified_qasm3) =
      (create_with s2 N2).map (fun c => c.modified_qasm3) := by
  subst hN
  have h : create_with s1 N1 = create_with s2 N1 := by
    simp only [create_with, hs]
  exact ⟨h, by rw [h]⟩

/-- Witness for C9: two invocations at `N = 2` with the modelled serializer. -/
theorem C9_deterministic_construction_witness :
    create_with serializeModel 2 = create_with serializeModel 2 ∧
    (create_with serializeModel 2).map (fun c => c.modified_qasm3) =
      (create_with serializeModel 2).map (fun c => c.modified_qasm3) :=
  C9_deterministic_construction serializeModel serializeModel 2 2 rfl
    (by norm_num) (by norm_num) (fun _ _ _ => rfl)

end Distillation
